import Mathlib

/-!
Verification of the hidet lowering / intrinsic-synthesis core.

This file gives a shallow embedding of:
* `LoopExpander` from `python/hidet/graph/ops/schedules/common.py`
  (grid / reduce / arg-reduce lowering),
* `num_regs`, `MmaConfig` and `register_mma_instructions` from
  `python/hidet/ir/primitives/cuda/mma.py`,
* the `cp_async` family from `python/hidet/ir/primitives/cuda/cp_async.py`,
* `UInt64.constant` from `python/hidet/ir/dtypes/uint64.py`,
and proves / refutes the frozen specification claims about them.
-/

namespace Hidet

/-- A variable in the IR: `Var(name, data_type)` from `hidet.ir.expr`.
Two variables are the same iff name and type agree (the Python code
creates at most one variable per node name during one expansion). -/
structure Var where
  name : String
  dtype : String
deriving DecidableEq, Repr

/-- The expression language visited by `LoopExpander`.

The Python classes `TensorNode` (field `tensor_compute`) and `ScalarNode`
(field `scalar_compute`) are flattened into one constructor per
(node kind, compute variant) pair:
* `TensorNode` with `tensor_compute = None`           ↦ `tensorInput`
* `TensorNode` with a `GridCompute`                    ↦ `gridCompute`
* `TensorNode` with an unsupported compute variant     ↦ `tensorOther`
* `ScalarNode` with `scalar_compute = None`           ↦ `scalarInput`
* `ScalarNode` with a `ReduceCompute`                  ↦ `reduceCompute`
* `ScalarNode` with an `ArgReduceCompute`              ↦ `argReduceCompute`
* `ScalarNode` with an unsupported compute variant     ↦ `scalarOther`
`nid` models Python object identity (nodes are hashed by identity in
`input_map` / `new_buffer_map`).

The methods of a reduce operation (`initial_value`, `combine`, `finalize`,
`arg_combine`) return expressions whose internal structure the lowering
never inspects; they are embedded as uninterpreted expression constructors
tagged with the operation's name. -/
inductive CExpr where
  | var (v : Var)
  | intConst (n : Int)
  | binary (op : String) (a b : CExpr)
  | reduceInit (op : String) (dtypeName : String)
  | reduceCombine (op : String) (acc v : CExpr)
  | reduceFinalize (op : String) (acc : CExpr) (count : Nat)
  | argCombine (op : String) (lhs rhs : CExpr)
  | tensorInput (nid : Nat) (name dataType : String)
  | gridCompute (nid : Nat) (name dataType : String)
      (shape : List Nat) (axes : List Var) (value : CExpr)
  | tensorOther (nid : Nat) (name dataType : String) (patName : String)
  | scalarInput (nid : Nat) (name dataType : String)
  | reduceCompute (nid : Nat) (name dataType : String)
      (shape : List Nat) (axes : List Var) (value : CExpr) (op : String)
  | argReduceCompute (nid : Nat) (name dataType : String)
      (extent : Nat) (axis : Var) (value : CExpr) (op : String) (indexDtype : String)
  | scalarOther (nid : Nat) (name dataType : String) (patName : String)
deriving DecidableEq, Repr

/-- Statements produced by the expansion, mirroring
`ForStmt`, `BufferStoreStmt`, `AssignStmt`, `DeclareStmt` and `IfStmt`
from `hidet.ir.stmt` (an `IfStmt` arises from `StmtBuilder.if_then`). -/
inductive Stmt where
  | forS (axis : Var) (extent : Nat) (body : List Stmt)
  | bufferStore (buf : Var) (indices : List CExpr) (value : CExpr)
  | assign (target : Var) (value : CExpr)
  | declare (v : Var) (init : CExpr)
  | ifThen (cond : CExpr) (body : List Stmt)

/-- `input_map` / `new_buffer_map`: association lists from node identity
to the variable holding that node's storage. -/
abbrev IMap := List (Nat × Var)

/-- Dictionary lookup (`input_map[e]`, first binding wins). -/
def lookupIM : IMap → Nat → Option Var
  | [], _ => none
  | (k, v) :: rest, n => if k = n then some v else lookupIM rest n

/-- The errors `LoopExpander` can raise: a `KeyError` for a leaf node
missing from `input_map`, and `NotImplementedError('Compute pattern …')`
for an unsupported compute variant. -/
inductive ExpandError where
  | keyError (nid : Nat) (name : String)
  | notImplementedPattern (patName : String)
deriving DecidableEq, Repr

/-- The loop nest built by the paired `enter_body(ForStmt(axes[i], shape[i]))`
/ `exit_body()` calls of the builder: the first axis is the outermost loop. -/
def nestFors : List (Var × Nat) → List Stmt → List Stmt
  | [], inner => inner
  | (a, ext) :: rest, inner => [Stmt.forS a ext (nestFors rest inner)]

/-- `infer_type` of `hidet.ir.functors`. Modelled from the spec: the type
inference module itself is not under `src/`; the spec only requires a
deterministic structural typing of the value expression ("one accumulator
typed to the value expression's inferred type"). -/
def inferType : CExpr → String
  | .var v => v.dtype
  | .intConst _ => "int32"
  | .binary _ a _ => inferType a
  | .reduceInit _ d => d
  | .reduceCombine _ a _ => inferType a
  | .reduceFinalize _ a _ => inferType a
  | .argCombine _ _ _ => "bool"
  | .tensorInput _ _ d => d
  | .gridCompute _ _ d _ _ _ => d
  | .tensorOther _ _ d _ => d
  | .scalarInput _ _ d => d
  | .reduceCompute _ _ d _ _ _ _ => d
  | .argReduceCompute _ _ d _ _ _ _ _ => d
  | .scalarOther _ _ d _ => d

/-- `hidet.utils.prod` applied to a shape. -/
def prod (l : List Nat) : Nat := l.foldl (fun a b => a * b) 1

/-- `LoopExpander.visit` (with `visit_TensorNode` / `visit_ScalarNode`
inlined at the corresponding constructors, and the generic
`ExprRewriter` child-rebuilding behaviour on the remaining constructors).
The builder state is threaded explicitly: the function receives the
current `new_buffer_map` and returns the updated map, the statements
appended at the current insertion point, and the rewritten
expression / handle. `im` is the (immutable) `input_map`. -/
def LoopExpander.visit (im : IMap) :
    CExpr → IMap → Except ExpandError (IMap × List Stmt × CExpr)
  | .var v, nb => .ok (nb, [], .var v)
  | .intConst n, nb => .ok (nb, [], .intConst n)
  | .binary op a b, nb => do
      let (nb1, sa, a') ← LoopExpander.visit im a nb
      let (nb2, sb, b') ← LoopExpander.visit im b nb1
      .ok (nb2, sa ++ sb, .binary op a' b')
  | .reduceInit op d, nb => .ok (nb, [], .reduceInit op d)
  | .reduceCombine op a v, nb => do
      let (nb1, sa, a') ← LoopExpander.visit im a nb
      let (nb2, sv, v') ← LoopExpander.visit im v nb1
      .ok (nb2, sa ++ sv, .reduceCombine op a' v')
  | .reduceFinalize op a c, nb => do
      let (nb1, sa, a') ← LoopExpander.visit im a nb
      .ok (nb1, sa, .reduceFinalize op a' c)
  | .argCombine op l r, nb => do
      let (nb1, sl, l') ← LoopExpander.visit im l nb
      let (nb2, sr, r') ← LoopExpander.visit im r nb1
      .ok (nb2, sl ++ sr, .argCombine op l' r')
  | .tensorInput nid name _dataType, nb =>
      -- input tensor: `return self.input_map[e]`
      match lookupIM im nid with
      | some v => .ok (nb, [], .var v)
      | none => .error (.keyError nid name)
  | .gridCompute nid name dataType shape axes value, nb =>
      -- GridCompute branch of visit_TensorNode
      let buf : Var := match lookupIM im nid with
        | some v => v
        | none => ⟨name, dataType⟩
      let nb1 : IMap := match lookupIM im nid with
        | some _ => nb
        | none => nb ++ [(nid, buf)]
      do
      let (nb2, vStmts, vExpr) ← LoopExpander.visit im value nb1
      .ok (nb2,
           nestFors (axes.zip shape)
             (vStmts ++ [Stmt.bufferStore buf (axes.map CExpr.var) vExpr]),
           .var buf)
  | .tensorOther _ _ _ patName, _ => .error (.notImplementedPattern patName)
  | .scalarInput nid name _dataType, nb =>
      -- input scalar: `return self.input_map[e]`
      match lookupIM im nid with
      | some v => .ok (nb, [], .var v)
      | none => .error (.keyError nid name)
  | .reduceCompute nid name dataType shape axes value op, nb =>
      -- ReduceCompute branch of visit_ScalarNode
      let acc : Var := ⟨name, inferType value⟩
      let nb1 : IMap := nb ++ [(nid, acc)]
      do
      let (nb2, vStmts, vExpr) ← LoopExpander.visit im value nb1
      let handle : CExpr := .reduceFinalize op (.var acc) (prod shape)
      let writeback : List Stmt := match lookupIM im nid with
        | some inputVar => [Stmt.assign inputVar handle]
        | none => []
      .ok (nb2,
           Stmt.assign acc (.reduceInit op dataType)
             :: (nestFors (axes.zip shape)
                   (vStmts ++ [Stmt.assign acc (.reduceCombine op (.var acc) vExpr)])
                 ++ writeback),
           handle)
  | .argReduceCompute nid name _dataType extent axis value op indexDtype, nb =>
      -- ArgReduceCompute branch of visit_ScalarNode
      let valueDtype := inferType value
      let accIndex : Var := ⟨name ++ "_idx", indexDtype⟩
      let accValue : Var := ⟨name ++ "_val", valueDtype⟩
      let nb1 : IMap := nb ++ [(nid, accIndex)]
      do
      let (nb2, vStmts, vExpr) ← LoopExpander.visit im value nb1
      let writeback : List Stmt := match lookupIM im nid with
        | some inputVar => [Stmt.assign inputVar (.var accIndex)]
        | none => []
      .ok (nb2,
           [Stmt.declare accValue (.reduceInit op valueDtype),
            Stmt.assign accIndex (.intConst 0),
            Stmt.forS axis extent
              (vStmts ++
               [Stmt.ifThen (.argCombine op vExpr (.var accValue))
                  [Stmt.assign accValue vExpr,
                   Stmt.assign accIndex (.var axis)]])]
           ++ writeback,
           .var accIndex)
  | .scalarOther _ _ _ patName, _ => .error (.notImplementedPattern patName)

/-- `expand_loop(expr, input_map)`: returns `(stmt, value, new_buffer_map)`. -/
def expand_loop (e : CExpr) (im : IMap) :
    Except ExpandError (List Stmt × CExpr × IMap) :=
  match LoopExpander.visit im e [] with
  | .ok (nb, stmts, value) => .ok (stmts, value, nb)
  | .error err => .error err

/-! ### Execution semantics of the emitted loop nests

To state the "every coordinate exactly once" property of grid lowering we
give the emitted statements a trace semantics: executing a statement under
an environment binding loop axes to concrete indices yields the ordered
list of buffer-store events it performs. -/

/-- Environments binding loop-axis variables to iteration indices
(innermost binding first). -/
abbrev Env := List (Var × Nat)

/-- First-match variable lookup. -/
def envLookup : Env → Var → Option Nat
  | [], _ => none
  | (k, n) :: rest, v => if k = v then some n else envLookup rest v

/-- Substitute environment-bound variables by integer constants: the value
stored by a loop body at one iteration point is the value expression with
the axis variables instantiated. Compute-node constructors are left
untouched (the property is stated for already-lowered, pure values). -/
def substEnv (env : Env) : CExpr → CExpr
  | .var v =>
      match envLookup env v with
      | some n => .intConst (n : Int)
      | none => .var v
  | .intConst n => .intConst n
  | .binary op a b => .binary op (substEnv env a) (substEnv env b)
  | .reduceInit op d => .reduceInit op d
  | .reduceCombine op a v => .reduceCombine op (substEnv env a) (substEnv env v)
  | .reduceFinalize op a c => .reduceFinalize op (substEnv env a) c
  | .argCombine op l r => .argCombine op (substEnv env l) (substEnv env r)
  | .tensorInput nid name d => .tensorInput nid name d
  | .gridCompute nid name d shape axes value => .gridCompute nid name d shape axes value
  | .tensorOther nid name d p => .tensorOther nid name d p
  | .scalarInput nid name d => .scalarInput nid name d
  | .reduceCompute nid name d shape axes value op => .reduceCompute nid name d shape axes value op
  | .argReduceCompute nid name d ext ax value op idt => .argReduceCompute nid name d ext ax value op idt
  | .scalarOther nid name d p => .scalarOther nid name d p

/-- Evaluate a store-index expression (an axis variable) under the
environment. -/
def evalIdx (env : Env) : CExpr → Option Nat
  | .var v => envLookup env v
  | _ => none

/-- One buffer-store event: target buffer, concrete index tuple, stored
value (with axis variables instantiated). -/
structure StoreEvent where
  buf : Var
  indices : List (Option Nat)
  value : CExpr
deriving DecidableEq, Repr

mutual

/-- Trace of one statement. Assignments and declarations perform no
buffer store; a data-dependent branch has no static trace (`none`). -/
def stmtTrace (env : Env) : Stmt → Option (List StoreEvent)
  | .forS a ext body => forTrace env a body ext
  | .bufferStore buf idxs v =>
      some [⟨buf, idxs.map (evalIdx env), substEnv env v⟩]
  | .assign _ _ => some []
  | .declare _ _ => some []
  | .ifThen _ _ => none

/-- Trace of the first `n` iterations of a `for` loop over axis `a`. -/
def forTrace (env : Env) (a : Var) (body : List Stmt) : Nat → Option (List StoreEvent)
  | 0 => some []
  | n + 1 => do
      let t1 ← forTrace env a body n
      let t2 ← stmtsTrace ((a, n) :: env) body
      some (t1 ++ t2)

/-- Trace of a statement sequence. -/
def stmtsTrace (env : Env) : List Stmt → Option (List StoreEvent)
  | [] => some []
  | s :: rest => do
      let t1 ← stmtTrace env s
      let t2 ← stmtsTrace env rest
      some (t1 ++ t2)

end

/-- All index tuples of the Cartesian product of the dimension ranges, in
row-major (lexicographic, first dimension outermost) order. -/
def cartProd : List Nat → List (List Nat)
  | [] => [[]]
  | n :: rest => (List.range n).flatMap (fun i => (cartProd rest).map (fun t => i :: t))

/-- A coordinate tuple lies in the Cartesian product of the dimension
ranges of `shape`. -/
def inBounds : List Nat → List Nat → Bool
  | [], [] => true
  | t :: ts, s :: ss => decide (t < s) && inBounds ts ss
  | _, _ => false

/-- The expression contains no compute nodes (it is a pure scalar
expression, already fully lowered). -/
def noCompute : CExpr → Bool
  | .var _ => true
  | .intConst _ => true
  | .binary _ a b => noCompute a && noCompute b
  | .reduceInit _ _ => true
  | .reduceCombine _ a v => noCompute a && noCompute v
  | .reduceFinalize _ a _ => noCompute a
  | .argCombine _ l r => noCompute l && noCompute r
  | .tensorInput _ _ _ => false
  | .gridCompute _ _ _ _ _ _ => false
  | .tensorOther _ _ _ _ => false
  | .scalarInput _ _ _ => false
  | .reduceCompute _ _ _ _ _ _ _ => false
  | .argReduceCompute _ _ _ _ _ _ _ _ => false
  | .scalarOther _ _ _ _ => false

/-- The loop-body environment produced by entering the loops of `axes`
bound to the components of `tup`, innermost binding first. -/
def bindRev (axes : List Var) (tup : List Nat) : Env := (axes.zip tup).reverse

/-- The expression is free of the two failure conditions of lowering
under `im`: every leaf input node (a node with no computation) has an
entry in `input_map`, and no compute node has a variant outside
{Grid, Reduce, Arg-Reduce}. -/
def wellFormed (im : IMap) : CExpr → Bool
  | .var _ => true
  | .intConst _ => true
  | .binary _ a b => wellFormed im a && wellFormed im b
  | .reduceInit _ _ => true
  | .reduceCombine _ a v => wellFormed im a && wellFormed im v
  | .reduceFinalize _ a _ => wellFormed im a
  | .argCombine _ l r => wellFormed im l && wellFormed im r
  | .tensorInput nid _ _ => (lookupIM im nid).isSome
  | .gridCompute _ _ _ _ _ value => wellFormed im value
  | .tensorOther _ _ _ _ => false
  | .scalarInput nid _ _ => (lookupIM im nid).isSome
  | .reduceCompute _ _ _ _ _ value _ => wellFormed im value
  | .argReduceCompute _ _ _ _ _ value _ _ => wellFormed im value
  | .scalarOther _ _ _ _ => false

/-- The expression contains no Reduce / Arg-Reduce scalar compute node. -/
def scalarComputeFree : CExpr → Bool
  | .var _ => true
  | .intConst _ => true
  | .binary _ a b => scalarComputeFree a && scalarComputeFree b
  | .reduceInit _ _ => true
  | .reduceCombine _ a v => scalarComputeFree a && scalarComputeFree v
  | .reduceFinalize _ a _ => scalarComputeFree a
  | .argCombine _ l r => scalarComputeFree l && scalarComputeFree r
  | .tensorInput _ _ _ => true
  | .gridCompute _ _ _ _ _ value => scalarComputeFree value
  | .tensorOther _ _ _ _ => true
  | .scalarInput _ _ _ => true
  | .reduceCompute _ _ _ _ _ _ _ => false
  | .argReduceCompute _ _ _ _ _ _ _ _ => false
  | .scalarOther _ _ _ _ => true

/-- Number of occurrences of a coordinate tuple in a list of tuples. -/
def countOcc (tup : List Nat) : List (List Nat) → Nat
  | [] => 0
  | t :: rest => (if t = tup then 1 else 0) + countOcc tup rest

/-- The postcondition of lowering a `GridCompute` tensor node, as claim C1
states it: (i) the emitted code is one `For` loop per output dimension,
outermost dimension first, each bound by that dimension's size and governed
by the node's axis variable, with exactly one indexed store of the lowered
value into the node's buffer at the axis tuple at the innermost level, the
buffer being reused from `input_map` or freshly allocated, and the node's
handle being its buffer; (ii) executing the emitted loop nest performs, in
order, one store per coordinate of the Cartesian product of the dimension
ranges, each storing the value expression instantiated at that coordinate;
(iii) each in-range coordinate occurs exactly once in that product. -/
def gridPost (nid : Nat) (name dataType : String) (shape : List Nat)
    (axes : List Var) (value : CExpr) (im nb : IMap) : Prop :=
  let buf : Var :=
    match lookupIM im nid with
    | some v => v
    | none => ⟨name, dataType⟩
  let nbOut : IMap :=
    match lookupIM im nid with
    | some _ => nb
    | none => nb ++ [(nid, buf)]
  let loopNest : List Stmt :=
    nestFors (axes.zip shape) [Stmt.bufferStore buf (axes.map CExpr.var) value]
  LoopExpander.visit im (.gridCompute nid name dataType shape axes value) nb
    = .ok (nbOut, loopNest, .var buf)
  ∧ stmtsTrace [] loopNest
      = some ((cartProd shape).map
          (fun tup => ⟨buf, tup.map some, substEnv (bindRev axes tup) value⟩))
  ∧ ∀ tup : List Nat, countOcc tup (cartProd shape) = if inBounds tup shape = true then 1 else 0

/-- The postcondition of lowering a `ReduceCompute` scalar node: one
accumulator named after the node and typed to the value expression's
inferred type, initialized to the reduce operation's identity taken at the
node's declared data type, one loop per reduction axis in declared order
with the combine update innermost, the finalize applied with the product
of the reduction extents, an extra store into the `input_map` entry when
one exists, and the finalized accumulator as the node's handle. -/
def reducePost (nid : Nat) (name dataType : String) (shape : List Nat)
    (axes : List Var) (value : CExpr) (op : String) (im nb : IMap) : Prop :=
  let acc : Var := ⟨name, inferType value⟩
  let handle : CExpr := .reduceFinalize op (.var acc) (prod shape)
  let writeback : List Stmt :=
    match lookupIM im nid with
    | some inputVar => [Stmt.assign inputVar handle]
    | none => []
  LoopExpander.visit im (.reduceCompute nid name dataType shape axes value op) nb
    = .ok (nb ++ [(nid, acc)],
           Stmt.assign acc (.reduceInit op dataType)
             :: (nestFors (axes.zip shape)
                   [Stmt.assign acc (.reduceCombine op (.var acc) value)]
                 ++ writeback),
           handle)

/-- The postcondition of lowering an `ArgReduceCompute` scalar node, as
claim C3 states it: a best-value accumulator typed to the value
expression's inferred type and a best-index accumulator typed to the
node's declared index type; best-value initialized to the reduce
operation's identity (at the inferred value type) and best-index to zero;
a single loop over the reduction axis whose body conditionally — guarded
by the operation's comparison predicate applied to (candidate, current
best-value) — updates both accumulators to the candidate value and the
current axis position; after the loop a store of the best-index
accumulator into the `input_map` entry when one exists; and the best-index
accumulator as the node's handle. -/
def argReducePost (nid : Nat) (name dataType : String) (extent : Nat) (axis : Var)
    (value : CExpr) (op : String) (indexDtype : String) (im nb : IMap) : Prop :=
  let valueDtype := inferType value
  let accIndex : Var := ⟨name ++ "_idx", indexDtype⟩
  let accValue : Var := ⟨name ++ "_val", valueDtype⟩
  let writeback : List Stmt :=
    match lookupIM im nid with
    | some inputVar => [Stmt.assign inputVar (.var accIndex)]
    | none => []
  LoopExpander.visit im
      (.argReduceCompute nid name dataType extent axis value op indexDtype) nb
    = .ok (nb ++ [(nid, accIndex)],
           [Stmt.declare accValue (.reduceInit op valueDtype),
            Stmt.assign accIndex (.intConst 0),
            Stmt.forS axis extent
              [Stmt.ifThen (.argCombine op value (.var accValue))
                 [Stmt.assign accValue value,
                  Stmt.assign accIndex (.var axis)]]]
           ++ writeback,
           .var accIndex)

/-! ### Instruction synthesis: tensor-core MMA (`hidet/ir/primitives/cuda/mma.py`) -/

/-- Task mappings (`hidet.ir.mapping`). For the claims below only their
identity as immutable value objects matters; `*` is the ordered product.
Modelled from the spec: the mapping module itself is not under `src/`. -/
inductive TaskMapping where
  | rowSpatial (d0 d1 : Nat)
  | colSpatial (d0 d1 : Nat)
  | rowRepeat (d0 d1 : Nat)
  | colRepeat (d0 d1 : Nat)
  | product (a b : TaskMapping)
deriving DecidableEq, Repr

instance : Mul TaskMapping := ⟨TaskMapping.product⟩

def row_spatial (d0 d1 : Nat) : TaskMapping := .rowSpatial d0 d1

def col_spatial (d0 d1 : Nat) : TaskMapping := .colSpatial d0 d1

def row_repeat (d0 d1 : Nat) : TaskMapping := .rowRepeat d0 d1

def col_repeat (d0 d1 : Nat) : TaskMapping := .colRepeat d0 d1

/-- `ScalarType(short_dtype).nbytes()`. Modelled from the spec: the scalar
type table is not under `src/`; the widths are the standard ones the spec
references (f16/bf16 are 16-bit, tf32 occupies a 32-bit word, f32 32-bit,
f64 64-bit). -/
def nbytes : String → Option Nat
  | "f16" => some 2
  | "bf16" => some 2
  | "tf32" => some 4
  | "f32" => some 4
  | "f64" => some 8
  | "i32" => some 4
  | "u32" => some 4
  | _ => none

/-- `num_regs(short_dtype, num_elements)`: per-lane 32-bit register count
for a warp-distributed operand; `assert num_bytes % (4 * 32) == 0` is
modelled by returning `none` when the divisibility fails. -/
def num_regs (short_dtype : String) (num_elements : Nat) : Option Nat :=
  match nbytes short_dtype with
  | none => none
  | some nb =>
      let num_bytes := nb * num_elements
      if num_bytes % (4 * 32) = 0 then some (num_bytes / (4 * 32)) else none

/-- `MmaConfig` with its derived per-operand element and register counts. -/
structure MmaConfig where
  m : Nat
  n : Nat
  k : Nat
  input_dtype : String
  output_dtype : String
  a_load_map : TaskMapping
  b_load_map : TaskMapping
  c_store_map : TaskMapping
  a_elements : Nat
  b_elements : Nat
  c_elements : Nat
  a_regs : Nat
  b_regs : Nat
  c_regs : Nat
deriving DecidableEq, Repr

/-- `MmaConfig.__init__`: computes the derived attributes; a failing
`num_regs` assertion propagates as `none`. -/
def MmaConfig.make (m n k : Nat) (input_dtype output_dtype : String)
    (a_load_map b_load_map c_store_map : TaskMapping) : Option MmaConfig :=
  match num_regs input_dtype (m * k), num_regs input_dtype (k * n),
        num_regs output_dtype (m * n) with
  | some ar, some br, some cr =>
      some ⟨m, n, k, input_dtype, output_dtype, a_load_map, b_load_map, c_store_map,
            m * k / 32, k * n / 32, m * n / 32, ar, br, cr⟩
  | _, _, _ => none

/-- `MmaConfig.inst_name()`. -/
def MmaConfig.inst_name (c : MmaConfig) : String :=
  "mma.sync.aligned.m" ++ toString c.m ++ "n" ++ toString c.n ++ "k" ++ toString c.k
    ++ ".row.col." ++ c.output_dtype ++ "." ++ c.input_dtype ++ "." ++ c.input_dtype
    ++ "." ++ c.output_dtype

/-- The table built by `register_mma_configs`, in dictionary insertion
order (the f16 entries for each output type, then bf16, then tf32). -/
def mma_config_entries : List (String × Option MmaConfig) :=
  [("m16n8k8_f16_f16", MmaConfig.make 16 8 8 "f16" "f16"
      (row_repeat 2 1 * row_spatial 8 4 * row_repeat 1 2)
      (col_spatial 4 8 * col_repeat 2 1)
      (row_repeat 2 1 * row_spatial 8 4 * row_repeat 1 2)),
   ("m16n8k16_f16_f16", MmaConfig.make 16 8 16 "f16" "f16"
      (col_repeat 2 2 * row_spatial 8 4 * row_repeat 1 2)
      (col_repeat 2 1 * col_spatial 4 8 * col_repeat 2 1)
      (row_repeat 2 1 * row_spatial 8 4 * row_repeat 1 2)),
   ("m16n8k8_f16_f32", MmaConfig.make 16 8 8 "f16" "f32"
      (row_repeat 2 1 * row_spatial 8 4 * row_repeat 1 2)
      (col_spatial 4 8 * col_repeat 2 1)
      (row_repeat 2 1 * row_spatial 8 4 * row_repeat 1 2)),
   ("m16n8k16_f16_f32", MmaConfig.make 16 8 16 "f16" "f32"
      (col_repeat 2 2 * row_spatial 8 4 * row_repeat 1 2)
      (col_repeat 2 1 * col_spatial 4 8 * col_repeat 2 1)
      (row_repeat 2 1 * row_spatial 8 4 * row_repeat 1 2)),
   ("m16n8k8_bf16_f32", MmaConfig.make 16 8 8 "bf16" "f32"
      (row_repeat 2 1 * row_spatial 8 4 * row_repeat 1 2)
      (col_spatial 4 8 * col_repeat 2 1)
      (row_repeat 2 1 * row_spatial 8 4 * row_repeat 1 2)),
   ("m16n8k16_bf16_f32", MmaConfig.make 16 8 16 "bf16" "f32"
      (col_repeat 2 2 * row_spatial 8 4 * row_repeat 1 2)
      (col_repeat 2 1 * col_spatial 4 8 * col_repeat 2 1)
      (row_repeat 2 1 * row_spatial 8 4 * row_repeat 1 2)),
   ("m16n8k4_tf32_f32", MmaConfig.make 16 8 4 "tf32" "f32"
      (row_repeat 2 1 * row_spatial 8 4)
      (col_spatial 4 8)
      (row_repeat 2 1 * row_spatial 8 4 * row_repeat 1 2)),
   ("m16n8k8_tf32_f32", MmaConfig.make 16 8 8 "tf32" "f32"
      (col_repeat 2 2 * row_spatial 8 4)
      (col_repeat 2 1 * col_spatial 4 8)
      (row_repeat 2 1 * row_spatial 8 4 * row_repeat 1 2))]

/-- The successfully validated registered configurations. -/
def mma_configs : List (String × MmaConfig) :=
  mma_config_entries.filterMap (fun p => p.2.map (fun c => (p.1, c)))

/-- An inline-asm statement: template string, output operand bindings
(constraint, register array, index) and input operand bindings. -/
structure AsmStmt where
  template_string : String
  outputs : List (String × String × Nat)
  inputs : List (String × String × Nat)
deriving DecidableEq, Repr

/-- Register placeholders `%lo, …, %(lo+len-1)`, Python
`['%{}'.format(i) for i in range(lo, lo + len)]`. -/
def regRange (lo len : Nat) : List String :=
  (List.range len).map (fun j => "%" ++ toString (lo + j))

/-- `'{{{}}}'.format(', '.join(regs))` followed by the trailing
separator (`,` between operand groups, `;` after the last). -/
def regGroup (regs : List String) (tail : String) : String :=
  "\x7b" ++ String.intercalate ", " regs ++ "\x7d" ++ tail

/-- The asm statement emitted by `register_mma_instructions` for one
configuration: the `template_sub_strings` list joined by single spaces,
the C registers bound read-write (`+r`) over `rc`, and the A then B
registers bound as inputs (`r`) over `ra` and `rb`. -/
def register_mma_instruction_asm (c : MmaConfig) : AsmStmt :=
  let template_sub_strings : List String :=
    [c.inst_name,
     regGroup (regRange 0 c.c_regs) ",",
     regGroup (regRange c.c_regs c.a_regs) ",",
     regGroup (regRange (c.c_regs + c.a_regs) c.b_regs) ",",
     regGroup (regRange 0 c.c_regs) ";"]
  { template_string := String.intercalate " " template_sub_strings
    outputs := (List.range c.c_regs).map (fun i => ("+r", "rc", i))
    inputs := (List.range c.a_regs).map (fun i => ("r", "ra", i))
               ++ (List.range c.b_regs).map (fun i => ("r", "rb", i)) }

/-- The asm statement as claim C4 describes it: after the instruction
name, the placeholder groups appear in the exact order C (`%0` through
`%(c_regs-1)`), then the A registers (numbered from `c_regs`), then the B
registers (numbered from `c_regs + a_regs`), with the C group repeated as
the final accumulator group; groups are brace-delimited, separated by
`", "`, and the statement is closed by `";"`; the C registers are bound
as read-write outputs and the A registers followed by the B registers as
inputs. -/
def mmaAsmSpec (c : MmaConfig) : AsmStmt :=
  let braced : List Nat → String := fun idxs =>
    "\x7b" ++ String.intercalate ", " (idxs.map (fun i => "%" ++ toString i)) ++ "\x7d"
  let cGroup := braced ((List.range c.c_regs).map (fun i => 0 + i))
  let aGroup := braced ((List.range c.a_regs).map (fun i => c.c_regs + i))
  let bGroup := braced ((List.range c.b_regs).map (fun i => c.c_regs + c.a_regs + i))
  { template_string :=
      c.inst_name ++ " " ++ String.intercalate ", " [cGroup, aGroup, bGroup, cGroup] ++ ";"
    outputs := (List.range c.c_regs).map (fun i => ("+r", "rc", i))
    inputs := (List.range c.a_regs).map (fun i => ("r", "ra", i))
               ++ (List.range c.b_regs).map (fun i => ("r", "rb", i)) }

/-! ### Instruction synthesis: asynchronous copy (`hidet/ir/primitives/cuda/cp_async.py`) -/

/-- A call expression to a registered primitive function. -/
structure Call where
  func_name : String
  args : List CExpr
deriving DecidableEq, Repr

/-- `call_cuda(func_name, args)` resolves the device function registered
under `'cuda_' + func_name`. Modelled from the spec: callers resolve
instructions purely by their deterministic name in the process-wide
symbol table. -/
def call_cuda (func_name : String) (args : List CExpr) : Call :=
  ⟨"cuda_" ++ func_name, args⟩

/-- `resolve_name_cp_async(cp_size, cache_level, prefetch_bytes)`. -/
def resolve_name_cp_async (cp_size : Int) (cache_level : String)
    (prefetch_bytes : Int) : String :=
  let prefetch_part :=
    if prefetch_bytes ≠ 0 then "_l2_" ++ toString prefetch_bytes ++ "B" else ""
  let cache_part := "c" ++ cache_level.take 1
  "cp_async_size_" ++ toString cp_size ++ "_" ++ cache_part ++ prefetch_part

/-- `cp_async(dst, src, cp_size, src_size, cache_level, prefetch_bytes)`:
eager parameter validation, then a call whose third argument defaults to
`cp_size` when `src_size` is omitted. -/
def cp_async (dst src : CExpr) (cp_size : Int) (src_size : Option CExpr)
    (cache_level : String) (prefetch_bytes : Int) : Except String Call :=
  if ¬ (cp_size = 4 ∨ cp_size = 8 ∨ cp_size = 16) then
    .error ("cp_size must be either 4, 8, or 16, got " ++ toString cp_size ++ ".")
  else if ¬ (prefetch_bytes = 0 ∨ prefetch_bytes = 64 ∨ prefetch_bytes = 128
              ∨ prefetch_bytes = 256) then
    .error ("prefetch_bytes must be either None, 64, 128 or 256, got "
             ++ toString prefetch_bytes ++ ".")
  else if ¬ (cache_level = "global" ∨ cache_level = "always") then
    .error ("Cache level candidates: [always, global], got " ++ cache_level)
  else if cache_level = "global" ∧ cp_size ≠ 16 then
    .error "When cache_level is global, the cp_size must be 16."
  else
    let ss : CExpr :=
      match src_size with
      | some e => e
      | none => .intConst cp_size
    .ok (call_cuda (resolve_name_cp_async cp_size cache_level prefetch_bytes)
          [dst, src, ss])

/-- `cp_async_commit_group()`. -/
def cp_async_commit_group : Call := call_cuda "cp_async_commit_group" []

/-- `cp_async_wait_group(n)`: validates `0 <= n < 10` eagerly. -/
def cp_async_wait_group (n : Int) : Except String Call :=
  if ¬ (0 ≤ n ∧ n < 10) then .error "n out of bound"
  else .ok (call_cuda ("cp_async_wait_group_" ++ toString n) [])

/-- `cp_async_wait_all()`. -/
def cp_async_wait_all : Call := call_cuda "cp_async_wait_all" []

/-- `resolve_ldmatrix_func_name(num, shared_space_addr, trans)`. -/
def resolve_ldmatrix_func_name (num : Nat) (shared_space_addr : Bool)
    (trans : Bool) : Except String String :=
  if ¬ (num = 1 ∨ num = 2 ∨ num = 4) then
    .error "Only support loading 1, 2, or 4 matrices using ldmatrix instruction."
  else
    .ok ("ldmatrix_x" ++ toString num
          ++ (if shared_space_addr then "_shared" else "")
          ++ (if trans then "_trans" else ""))

/-- Success test for `Except` results. -/
def isOkE {ε α : Type} : Except ε α → Bool
  | .ok _ => true
  | .error _ => false

/-- The single-instruction body of the device function registered by
`register_cp_async_wait_group` for a given pending-group count: the
literal template `'cp.async.commit_group {};'.format(groups)` from
cp_async.py line 85. -/
def cuda_cp_async_wait_group_asm (groups : Nat) : String :=
  "cp.async.commit_group " ++ toString groups ++ ";"

/-- Body of `cuda_cp_async_commit_group`. -/
def cuda_cp_async_commit_group_asm : String := "cp.async.commit_group;"

/-- Body of `cuda_cp_async_wait_all`. -/
def cuda_cp_async_wait_all_asm : String := "cp.async.wait_all;"

/-- Modelled from the spec: the issue / commit / wait ordered-queue state
machine of §5 (the hardware protocol is not code of this repository):
`uncommitted` counts copies issued since the last commit, `pending`
counts outstanding committed groups. -/
structure CpAsyncState where
  uncommitted : Nat
  pending : Nat
deriving DecidableEq, Repr

/-- Modelled from the spec: the protocol operations. -/
inductive CpAsyncOp where
  | issue
  | commit
  | waitGroup (n : Nat)
  | waitAll
deriving DecidableEq, Repr

/-- Modelled from the spec: effect of one protocol operation — commit
closes the issued copies into one numbered pending group, `waitGroup n`
blocks until at most `n` groups remain outstanding, `waitAll` blocks
until zero remain. -/
def CpAsyncOp.run : CpAsyncOp → CpAsyncState → CpAsyncState
  | .issue, s => ⟨s.uncommitted + 1, s.pending⟩
  | .commit, s => ⟨0, s.pending + 1⟩
  | .waitGroup n, s => ⟨s.uncommitted, min s.pending n⟩
  | .waitAll, s => ⟨s.uncommitted, 0⟩

/-- Decode a single asm instruction template into the protocol operation
it denotes: `cp.async.commit_group;`, `cp.async.wait_group N;` with
`N ∈ [0, 10)`, or `cp.async.wait_all;`; any other string is not an
instruction of the protocol. -/
def decodeCpAsyncInstr (s : String) : Option CpAsyncOp :=
  if s = "cp.async.commit_group;" then some .commit
  else if s = "cp.async.wait_all;" then some .waitAll
  else
    (List.range 10).findSome?
      (fun n =>
        if s = "cp.async.wait_group " ++ toString n ++ ";" then
          some (.waitGroup n)
        else none)

/-! ### `UInt64` data type (`hidet/ir/dtypes/uint64.py`) -/

/-- A Python numeric argument: an `int` or a `float` (modelled as an
exact rational; only its truncation to an integer is used). -/
inductive PyNum where
  | int (i : Int)
  | float (q : Rat)
deriving DecidableEq, Repr

/-- A `Constant` expression carrying its value and data type name. -/
structure IRConstant where
  value : Int
  dtype : String
deriving DecidableEq, Repr

/-- Python `int(x)` applied to a float: truncation toward zero. -/
def pyTrunc (q : Rat) : Int := if 0 ≤ q then q.floor else q.ceil

/-- `UInt64.constant(value)`: floats are truncated to an integer first
(emitting a warning, recorded in the boolean), then the value is
range-checked against `[0, 18446744073709551615]`; in range it yields a
`Constant` carrying exactly the value, otherwise a `ValueError`. -/
def UInt64.constant (v : PyNum) : Bool × Except String IRConstant :=
  let p : Bool × Int :=
    match v with
    | .int i => (false, i)
    | .float q => (true, pyTrunc q)
  if 0 ≤ p.2 ∧ p.2 ≤ 18446744073709551615 then
    (p.1, .ok ⟨p.2, "uint64"⟩)
  else
    (p.1, .error ("Value " ++ toString p.2 ++ " is out of range for uint64."))

/-- `UInt64.one()`. -/
def UInt64.one : Bool × Except String IRConstant := UInt64.constant (.int 1)

/-- `UInt64.zero()`. -/
def UInt64.zero : Bool × Except String IRConstant := UInt64.constant (.int 0)

/-- `UInt64.min_value()`. -/
def UInt64.min_value : Bool × Except String IRConstant := UInt64.constant (.int 0)

/-- `UInt64.max_value()`. -/
def UInt64.max_value : Bool × Except String IRConstant :=
  UInt64.constant (.int 18446744073709551615)

/-! ### Helper lemmas -/

theorem except_ok_bind {ε α β : Type} (x : α) (f : α → Except ε β) :
    (Except.ok (ε := ε) x >>= f) = f x := rfl

theorem visit_noCompute (im : IMap) (e : CExpr) (h : noCompute e = true) :
    ∀ nb : IMap, LoopExpander.visit im e nb = .ok (nb, [], e) := by
  induction e with
  | var v => intro nb; rfl
  | intConst n => intro nb; rfl
  | binary op a b iha ihb =>
      intro nb
      simp only [noCompute, Bool.and_eq_true] at h
      simp [LoopExpander.visit, iha h.1, ihb h.2, except_ok_bind]
  | reduceInit op d => intro nb; rfl
  | reduceCombine op a v iha ihv =>
      intro nb
      simp only [noCompute, Bool.and_eq_true] at h
      simp [LoopExpander.visit, iha h.1, ihv h.2, except_ok_bind]
  | reduceFinalize op a c iha =>
      intro nb
      simp only [noCompute] at h
      simp [LoopExpander.visit, iha h, except_ok_bind]
  | argCombine op l r ihl ihr =>
      intro nb
      simp only [noCompute, Bool.and_eq_true] at h
      simp [LoopExpander.visit, ihl h.1, ihr h.2, except_ok_bind]
  | tensorInput nid name d => simp [noCompute] at h
  | gridCompute nid name d shape axes value ih => simp [noCompute] at h
  | tensorOther nid name d p => simp [noCompute] at h
  | scalarInput nid name d => simp [noCompute] at h
  | reduceCompute nid name d shape axes value op ih => simp [noCompute] at h
  | argReduceCompute nid name d ext ax value op idt ih => simp [noCompute] at h
  | scalarOther nid name d p => simp [noCompute] at h

theorem forTrace_of_const (a : Var) (body : List Stmt) (F : Env → List StoreEvent)
    (hbody : ∀ env', stmtsTrace env' body = some (F env')) :
    ∀ (n : Nat) (env : Env),
      forTrace env a body n
        = some ((List.range n).flatMap (fun i => F ((a, i) :: env))) := by
  intro n
  induction n with
  | zero => intro env; simp [forTrace]
  | succ m ih =>
      intro env
      simp [forTrace, ih, hbody, List.range_succ]

theorem nestFors_trace (buf : Var) (idxs : List CExpr) (v : CExpr) :
    ∀ (azs : List (Var × Nat)) (env : Env),
      stmtsTrace env (nestFors azs [Stmt.bufferStore buf idxs v])
        = some ((cartProd (azs.map Prod.snd)).map
            (fun tup =>
              ⟨buf, idxs.map (evalIdx (bindRev (azs.map Prod.fst) tup ++ env)),
               substEnv (bindRev (azs.map Prod.fst) tup ++ env) v⟩)) := by
  intro azs
  induction azs with
  | nil =>
      intro env
      simp [nestFors, stmtsTrace, stmtTrace, cartProd, bindRev]
  | cons p rest ih =>
      obtain ⟨a, ext⟩ := p
      intro env
      have hfor := forTrace_of_const a (nestFors rest [Stmt.bufferStore buf idxs v])
        (fun env' =>
          (cartProd (rest.map Prod.snd)).map
            (fun tup =>
              ⟨buf, idxs.map (evalIdx (bindRev (rest.map Prod.fst) tup ++ env')),
               substEnv (bindRev (rest.map Prod.fst) tup ++ env') v⟩))
        (fun env' => ih env') ext env
      simp only [nestFors, stmtsTrace, stmtTrace, hfor, Option.bind_eq_bind,
        Option.some_bind, List.append_nil, List.map_cons, List.map_nil]
      simp only [cartProd, List.map_cons, List.map_flatMap]
      congr 1
      apply List.flatMap_congr
      intro i _
      rw [List.map_map]
      apply List.map_congr_left
      intro tup _
      have henv : bindRev (rest.map Prod.fst) tup ++ ((a, i) :: env)
          = bindRev (a :: rest.map Prod.fst) (i :: tup) ++ env := by
        simp [bindRev, List.append_assoc]
      simp only [Function.comp]
      rw [← henv]

theorem envLookup_append_of_not_mem (x : Var) :
    ∀ (l env : Env), x ∉ l.map Prod.fst → envLookup (l ++ env) x = envLookup env x := by
  intro l
  induction l with
  | nil => intro env _; rfl
  | cons p rest ih =>
      obtain ⟨k, n⟩ := p
      intro env hx
      simp only [List.map_cons, List.mem_cons] at hx
      push_neg at hx
      simp only [List.cons_append, envLookup]
      rw [if_neg (fun hkx => hx.1 hkx.symm)]
      exact ih env hx.2

theorem zip_keys_mem (xs : List Var) (ts : List Nat) :
    ∀ y ∈ (xs.zip ts).map Prod.fst, y ∈ xs := by
  intro y hy
  simp only [List.mem_map] at hy
  obtain ⟨⟨a, b⟩, hp, hpy⟩ := hy
  have hm := List.of_mem_zip hp
  exact hpy ▸ hm.1

theorem envLookup_bindRev :
    ∀ (axes : List Var) (tup : List Nat) (env : Env),
      axes.Nodup → tup.length = axes.length →
      axes.map (fun a => envLookup (bindRev axes tup ++ env) a) = tup.map some := by
  intro axes
  induction axes with
  | nil =>
      intro tup env _ hlen
      cases tup with
      | nil => rfl
      | cons t ts => simp at hlen
  | cons x xs ih =>
      intro tup env hnd hlen
      cases tup with
      | nil => simp at hlen
      | cons t ts =>
          rw [List.nodup_cons] at hnd
          have hbr : bindRev (x :: xs) (t :: ts) = bindRev xs ts ++ [(x, t)] := by
            simp [bindRev]
          have hkeys : x ∉ (bindRev xs ts).map Prod.fst := by
            intro hmem
            have : x ∈ xs := by
              apply zip_keys_mem xs ts
              simpa [bindRev, List.map_reverse] using hmem
            exact hnd.1 this
          simp only [List.map_cons, List.map_nil, hbr, List.append_assoc,
            List.singleton_append]
          have hhead : envLookup (bindRev xs ts ++ ((x, t) :: env)) x = some t := by
            rw [envLookup_append_of_not_mem x _ _ hkeys]
            simp [envLookup]
          rw [hhead]
          have htail := ih ts ((x, t) :: env) hnd.2 (by simpa using hlen)
          rw [htail]

theorem length_of_mem_cartProd :
    ∀ (shape tup : List Nat), tup ∈ cartProd shape → tup.length = shape.length := by
  intro shape
  induction shape with
  | nil =>
      intro tup h
      simp only [cartProd, List.mem_singleton] at h
      subst h; rfl
  | cons n rest ih =>
      intro tup h
      simp only [cartProd, List.mem_flatMap, List.mem_map, List.mem_range] at h
      obtain ⟨i, _, t, ht, rfl⟩ := h
      simp [ih t ht]

theorem mem_cartProd :
    ∀ (shape tup : List Nat), tup ∈ cartProd shape ↔ inBounds tup shape = true := by
  intro shape
  induction shape with
  | nil => intro tup; cases tup <;> simp [cartProd, inBounds]
  | cons n rest ih =>
      intro tup
      cases tup with
      | nil =>
          simp only [cartProd, List.mem_flatMap, List.mem_map, List.mem_range, inBounds]
          constructor
          · rintro ⟨i, _, t, _, h⟩; cases h
          · intro h; cases h
      | cons t ts =>
          simp only [cartProd, List.mem_flatMap, List.mem_map, List.mem_range, inBounds,
            Bool.and_eq_true, decide_eq_true_eq]
          constructor
          · rintro ⟨i, hi, t', ht', heq⟩
            injection heq with h1 h2
            subst h1
            subst h2
            exact ⟨hi, (ih _).1 ht'⟩
          · rintro ⟨h1, h2⟩
            exact ⟨t, h1, ts, (ih ts).2 h2, rfl⟩

theorem cartProd_nodup : ∀ shape : List Nat, (cartProd shape).Nodup := by
  intro shape
  induction shape with
  | nil => simp [cartProd]
  | cons n rest ih =>
      simp only [cartProd]
      rw [List.nodup_flatMap]
      refine ⟨fun i _ => ih.map fun t1 t2 h => by injection h, ?_⟩
      have hr : (List.range n).Nodup := List.nodup_range n
      apply List.Pairwise.imp ?_ hr
      intro i j hij
      simp only [Function.onFun]
      intro x hx hy
      simp only [List.mem_map] at hx hy
      obtain ⟨t1, _, rfl⟩ := hx
      obtain ⟨t2, _, heq⟩ := hy
      injection heq with h1 _
      exact hij h1.symm

theorem countOcc_eq_zero_of_not_mem {tup : List Nat} :
    ∀ {l : List (List Nat)}, tup ∉ l → countOcc tup l = 0 := by
  intro l
  induction l with
  | nil => intro _; rfl
  | cons x rest ih =>
      intro h
      simp only [List.mem_cons] at h
      push_neg at h
      have hx : ¬ x = tup := fun hxt => h.1 hxt.symm
      simp [countOcc, hx, ih h.2]

theorem countOcc_eq_one_of_nodup_mem {tup : List Nat} :
    ∀ {l : List (List Nat)}, l.Nodup → tup ∈ l → countOcc tup l = 1 := by
  intro l
  induction l with
  | nil => intro _ h; cases h
  | cons x rest ih =>
      intro hnd hm
      rw [List.nodup_cons] at hnd
      rcases List.mem_cons.1 hm with heq | hmem
      · subst heq
        simp [countOcc, countOcc_eq_zero_of_not_mem hnd.1]
      · have hx : x ≠ tup := fun hxe => hnd.1 (hxe ▸ hmem)
        simp [countOcc, hx, ih hnd.2 hmem]

theorem cartProd_count (shape tup : List Nat) :
    countOcc tup (cartProd shape) = if inBounds tup shape = true then 1 else 0 := by
  by_cases h : inBounds tup shape = true
  · rw [if_pos h]
    exact countOcc_eq_one_of_nodup_mem (cartProd_nodup shape) ((mem_cartProd shape tup).2 h)
  · rw [if_neg h]
    exact countOcc_eq_zero_of_not_mem fun hm => h ((mem_cartProd shape tup).1 hm)

/-! ### Claim C1: grid-compute lowering -/

/-- Claim C1: for every GridCompute tensor node with shape `S` of `k`
dimensions and a pure value expression `f`, `expand` emits one For loop per
output dimension, outermost first, each bound by that dimension's size and
governed by the node's axis variable, with exactly one indexed store of the
lowered value into the node's buffer at the current axis tuple at the
innermost level; the lowered loop nest writes `f(i0,...,ik)` into every
coordinate of the Cartesian product of `S`'s dimension ranges exactly once,
and the node's handle is its buffer. -/
theorem c1_grid_compute_lowering
    (nid : Nat) (name dataType : String) (shape : List Nat) (axes : List Var)
    (value : CExpr) (im nb : IMap)
    (hpure : noCompute value = true)
    (hlen : axes.length = shape.length)
    (hnd : axes.Nodup) :
    gridPost nid name dataType shape axes value im nb := by
  simp only [gridPost]
  refine ⟨?_, ?_, fun tup => cartProd_count shape tup⟩
  · simp [LoopExpander.visit, visit_noCompute im value hpure, except_ok_bind]
  · have hfst : (axes.zip shape).map Prod.fst = axes :=
      List.map_fst_zip axes shape (le_of_eq hlen)
    have hsnd : (axes.zip shape).map Prod.snd = shape :=
      List.map_snd_zip axes shape (le_of_eq hlen.symm)
    rw [nestFors_trace]
    simp only [hfst, hsnd]
    congr 1
    apply List.map_congr_left
    intro tup htup
    have hlt : tup.length = axes.length :=
      (length_of_mem_cartProd shape tup htup).trans hlen.symm
    simp only [List.append_nil]
    have hidx : (axes.map CExpr.var).map (evalIdx (bindRev axes tup)) = tup.map some := by
      rw [List.map_map]
      have h3 := envLookup_bindRev axes tup [] hnd hlt
      rw [List.append_nil] at h3
      simpa [Function.comp, evalIdx] using h3
    rw [hidx]

/-- Witness for C1 at a concrete grid node: shape `[2, 3]`, axes `i`, `j`,
value `i + j`, empty `input_map`. -/
theorem c1_grid_compute_lowering_witness :
    noCompute (CExpr.binary "add" (.var ⟨"i", "int32"⟩) (.var ⟨"j", "int32"⟩)) = true
    ∧ ([(⟨"i", "int32"⟩ : Var), ⟨"j", "int32"⟩]).length = ([2, 3] : List Nat).length
    ∧ ([(⟨"i", "int32"⟩ : Var), ⟨"j", "int32"⟩]).Nodup
    ∧ gridPost 7 "c" "f32" [2, 3] [⟨"i", "int32"⟩, ⟨"j", "int32"⟩]
        (CExpr.binary "add" (.var ⟨"i", "int32"⟩) (.var ⟨"j", "int32"⟩)) [] [] :=
  ⟨by decide, by decide, by decide,
   c1_grid_compute_lowering 7 "c" "f32" [2, 3] [⟨"i", "int32"⟩, ⟨"j", "int32"⟩]
     (CExpr.binary "add" (.var ⟨"i", "int32"⟩) (.var ⟨"j", "int32"⟩)) [] []
     (by decide) (by decide) (by decide)⟩

/-! ### Claims C2/C3: reduce and arg-reduce lowering -/

/-- Claim C2 (amended): the reduce-compute accumulator is typed to the
value expression's inferred type but initialized to the reduce operation's
identity for the node's declared data type (`e.data_type.name`), with one
loop per reduction axis in declared order, the combine update innermost,
finalize applied with the product of the reduction-dimension sizes, an
additional store into the `input_map` entry when one exists, and the
finalized accumulator as the node's handle. -/
theorem c2_reduce_compute_lowering
    (nid : Nat) (name dataType : String) (shape : List Nat) (axes : List Var)
    (value : CExpr) (op : String) (im nb : IMap)
    (hpure : noCompute value = true)
    (_hlen : axes.length = shape.length) :
    reducePost nid name dataType shape axes value op im nb := by
  simp only [reducePost]
  simp [LoopExpander.visit, visit_noCompute im value hpure, except_ok_bind]

/-- Counterexample to claim C2 as stated: for a reduce node declared with
data type `f16` whose value expression has inferred type `f32`, the
accumulator is typed `f32` (the inferred type) but its initialization is
the reduce operation's identity taken at `f16` — the node's declared data
type — not at the inferred type, contradicting "initializes it to the
Reduce Operation's identity for that same type". -/
theorem c2_init_dtype_counterexample :
    LoopExpander.visit [] (CExpr.reduceCompute 0 "s" "f16" [3] [⟨"k", "int32"⟩]
        (CExpr.var ⟨"x", "f32"⟩) "sum") []
      = .ok ([(0, ⟨"s", "f32"⟩)],
             [Stmt.assign ⟨"s", "f32"⟩ (.reduceInit "sum" "f16"),
              Stmt.forS ⟨"k", "int32"⟩ 3
                [Stmt.assign ⟨"s", "f32"⟩
                   (.reduceCombine "sum" (.var ⟨"s", "f32"⟩) (.var ⟨"x", "f32"⟩))]],
             .reduceFinalize "sum" (.var ⟨"s", "f32"⟩) 3)
    ∧ CExpr.reduceInit "sum" "f16"
        ≠ CExpr.reduceInit "sum" (inferType (CExpr.var ⟨"x", "f32"⟩)) :=
  ⟨rfl, by decide⟩

/-- Witness for C2 (amended) at a concrete reduce node present in
`input_map`, exercising the write-back store. -/
theorem c2_reduce_compute_lowering_witness :
    noCompute (CExpr.var ⟨"x", "f32"⟩) = true
    ∧ ([(⟨"k", "int32"⟩ : Var)]).length = ([4] : List Nat).length
    ∧ reducePost 5 "s" "f16" [4] [⟨"k", "int32"⟩] (CExpr.var ⟨"x", "f32"⟩) "sum"
        [(5, ⟨"out", "f32"⟩)] [] :=
  ⟨by decide, by decide,
   c2_reduce_compute_lowering 5 "s" "f16" [4] [⟨"k", "int32"⟩]
     (CExpr.var ⟨"x", "f32"⟩) "sum" [(5, ⟨"out", "f32"⟩)] [] (by decide) (by decide)⟩

/-- Claim C3: for every ArgReduceCompute scalar node, `expand` allocates a
best-value accumulator typed to the value expression's inferred type and a
best-index accumulator typed to the node's declared index type,
initializes best-value to the reduce operation's identity and best-index
to zero, emits a single loop over the one reduction axis whose body
updates both accumulators together under a guard given by the operation's
comparison predicate applied to (candidate, current best-value), emits a
store of the best-index accumulator into the `input_map` entry when one
exists, and returns the best-index accumulator as the node's handle. -/
theorem c3_arg_reduce_compute_lowering
    (nid : Nat) (name dataType : String) (extent : Nat) (axis : Var)
    (value : CExpr) (op : String) (indexDtype : String) (im nb : IMap)
    (hpure : noCompute value = true) :
    argReducePost nid name dataType extent axis value op indexDtype im nb := by
  simp only [argReducePost]
  simp [LoopExpander.visit, visit_noCompute im value hpure, except_ok_bind]

/-- Witness for C3 at a concrete arg-reduce node present in `input_map`. -/
theorem c3_arg_reduce_compute_lowering_witness :
    noCompute (CExpr.var ⟨"x", "f32"⟩) = true
    ∧ argReducePost 9 "am" "f32" 4 ⟨"k", "int32"⟩ (CExpr.var ⟨"x", "f32"⟩)
        "max" "int64" [(9, ⟨"outIdx", "int64"⟩)] [] :=
  ⟨by decide,
   c3_arg_reduce_compute_lowering 9 "am" "f32" 4 ⟨"k", "int32"⟩
     (CExpr.var ⟨"x", "f32"⟩) "max" "int64" [(9, ⟨"outIdx", "int64"⟩)] [] (by decide)⟩

/-! ### Claims C4/C5: MMA instruction synthesis -/

set_option maxHeartbeats 1600000 in
/-- Claim C4: for every registered MMA configuration, the generated device
function's asm template lists its register placeholder groups in the exact
order C (`%0` through `%(c_regs-1)`), then the A registers, then the B
registers, with the C group repeated as the final accumulator group, and
binds the C registers as read-write outputs and the A registers followed
by the B registers as inputs (`register_mma_instruction_asm` refines the
claim-side description `mmaAsmSpec`); moreover all eight table entries
pass configuration validation. -/
theorem c4_mma_operand_order :
    (∀ p ∈ mma_configs, register_mma_instruction_asm p.2 = mmaAsmSpec p.2)
    ∧ mma_configs.length = 8 := by
  constructor
  · decide
  · rfl

set_option maxHeartbeats 1600000 in
/-- Witness for C4 at the first registered configuration
(`m16n8k8_f16_f16`, with `c_regs = 2`, `a_regs = 2`, `b_regs = 1`). -/
theorem c4_mma_operand_order_witness :
    (("m16n8k8_f16_f16",
      (⟨16, 8, 8, "f16", "f16",
        row_repeat 2 1 * row_spatial 8 4 * row_repeat 1 2,
        col_spatial 4 8 * col_repeat 2 1,
        row_repeat 2 1 * row_spatial 8 4 * row_repeat 1 2,
        4, 2, 4, 2, 1, 2⟩ : MmaConfig)) ∈ mma_configs)
    ∧ register_mma_instruction_asm
        (("m16n8k8_f16_f16",
          (⟨16, 8, 8, "f16", "f16",
            row_repeat 2 1 * row_spatial 8 4 * row_repeat 1 2,
            col_spatial 4 8 * col_repeat 2 1,
            row_repeat 2 1 * row_spatial 8 4 * row_repeat 1 2,
            4, 2, 4, 2, 1, 2⟩ : MmaConfig)) : String × MmaConfig).2
        = mmaAsmSpec
          (("m16n8k8_f16_f16",
            (⟨16, 8, 8, "f16", "f16",
              row_repeat 2 1 * row_spatial 8 4 * row_repeat 1 2,
              col_spatial 4 8 * col_repeat 2 1,
              row_repeat 2 1 * row_spatial 8 4 * row_repeat 1 2,
              4, 2, 4, 2, 1, 2⟩ : MmaConfig)) : String × MmaConfig).2 := by
  have h0 : mma_configs.head? = some ("m16n8k8_f16_f16",
      (⟨16, 8, 8, "f16", "f16",
        row_repeat 2 1 * row_spatial 8 4 * row_repeat 1 2,
        col_spatial 4 8 * col_repeat 2 1,
        row_repeat 2 1 * row_spatial 8 4 * row_repeat 1 2,
        4, 2, 4, 2, 1, 2⟩ : MmaConfig)) := rfl
  have hm := List.eq_cons_of_mem_head? (Option.mem_def.2 h0)
  have hmem : ("m16n8k8_f16_f16",
      (⟨16, 8, 8, "f16", "f16",
        row_repeat 2 1 * row_spatial 8 4 * row_repeat 1 2,
        col_spatial 4 8 * col_repeat 2 1,
        row_repeat 2 1 * row_spatial 8 4 * row_repeat 1 2,
        4, 2, 4, 2, 1, 2⟩ : MmaConfig)) ∈ mma_configs := by
    rw [hm]; exact List.Mem.head _
  exact ⟨hmem, c4_mma_operand_order.1 _ hmem⟩

/-- Counterexample to claim C5 as stated: `num_regs('f16', 128)` returns
2 registers per lane (128 elements × 16 bits = 256 bytes; 256 / (4·32) =
2), not 1. -/
theorem c5_num_regs_counterexample :
    num_regs "f16" 128 = some 2 ∧ num_regs "f16" 128 ≠ some 1 :=
  ⟨rfl, by decide⟩

/-- Claim C5 (amended): `num_regs` applied to 128 elements of a 16-bit
type returns 2 registers per lane, the computation succeeds exactly when
the total byte count is divisible by 4·32 (i.e. the total bit count by
32 registers × 32 bits), returning total_bytes / (4·32), and fails
validation otherwise (e.g. 100 f16 elements = 200 bytes). -/
theorem c5_num_regs :
    num_regs "f16" 128 = some 2
    ∧ (∀ (d : String) (n : Nat),
         (num_regs d n).isSome = true
           ↔ ∃ nb, nbytes d = some nb ∧ (nb * n) % (4 * 32) = 0)
    ∧ (∀ (d : String) (n : Nat),
         num_regs d n
           = (nbytes d).bind
               (fun nb =>
                 if (nb * n) % (4 * 32) = 0 then some (nb * n / (4 * 32)) else none))
    ∧ num_regs "f16" 100 = none := by
  refine ⟨rfl, ?_, ?_, rfl⟩
  · intro d n
    cases h : nbytes d with
    | none => simp [num_regs, h]
    | some nb =>
        simp only [num_regs, h]
        by_cases hd : (nb * n) % (4 * 32) = 0
        · simp [hd]
        · simp [hd]
  · intro d n
    cases h : nbytes d with
    | none => simp [num_regs, h]
    | some nb => simp [num_regs, h]

/-! ### Claim C6: cp_async wait-group registration -/

/-- Claim C6 evaluated at the failing input `n = 0`: the device function
registered under `cuda_cp_async_wait_group_0` has the single-instruction
body `cp.async.commit_group 0;` — a commit-group template (with a
spurious operand), not the wait instruction — so it is not the wait-group
protocol operation at all, whereas the claim requires the wait
instruction `cp.async.wait_group 0;`, whose effect on a state with one
outstanding group equals that of `cp.async.wait_all;`. -/
theorem c6_wait_group_registration_bug :
    cuda_cp_async_wait_group_asm 0 = "cp.async.commit_group 0;"
    ∧ cuda_cp_async_wait_group_asm 0 ≠ "cp.async.wait_group 0;"
    ∧ decodeCpAsyncInstr (cuda_cp_async_wait_group_asm 0) = none
    ∧ decodeCpAsyncInstr "cp.async.wait_group 0;" = some (CpAsyncOp.waitGroup 0)
    ∧ decodeCpAsyncInstr cuda_cp_async_wait_all_asm = some CpAsyncOp.waitAll
    ∧ CpAsyncOp.run (.waitGroup 0) ⟨0, 1⟩ = CpAsyncOp.run .waitAll ⟨0, 1⟩
    ∧ (∀ n : Nat, n < 10 →
        CpAsyncOp.run (.waitGroup n) ⟨0, 1⟩
          = if n = 0 then CpAsyncOp.run .waitAll ⟨0, 1⟩ else ⟨0, 1⟩) := by
  refine ⟨rfl, by decide, by decide, by decide, by decide, rfl, ?_⟩
  intro n _
  cases n with
  | zero => rfl
  | succ m =>
      simp only [CpAsyncOp.run, if_neg (Nat.succ_ne_zero m)]
      simp [Nat.min_eq_left (Nat.one_le_iff_ne_zero.2 (Nat.succ_ne_zero m))]

/-! ### Claim C7: eager parameter validation -/

/-- Claim C7: `cp_async` succeeds iff `cp_size ∈ {4, 8, 16}`,
`prefetch_bytes ∈ {0, 64, 128, 256}`, `cache_level ∈ {'always',
'global'}` and (`cache_level = 'global'` implies `cp_size = 16`);
`cp_async_wait_group n` succeeds iff `0 ≤ n < 10`;
`resolve_ldmatrix_func_name` succeeds iff the matrix count is in
`{1, 2, 4}`; concretely size 16 + 'global' is accepted while size 8 +
'global' and size 4 + prefetch 100 are rejected; and on success with
`src_size` omitted the call's source-size argument defaults to
`cp_size`. -/
theorem c7_eager_validation :
    (∀ (dst src : CExpr) (cp_size : Int) (src_size : Option CExpr)
        (cache_level : String) (prefetch_bytes : Int),
      isOkE (cp_async dst src cp_size src_size cache_level prefetch_bytes) = true
        ↔ ((cp_size = 4 ∨ cp_size = 8 ∨ cp_size = 16)
           ∧ (prefetch_bytes = 0 ∨ prefetch_bytes = 64 ∨ prefetch_bytes = 128
              ∨ prefetch_bytes = 256)
           ∧ (cache_level = "always" ∨ cache_level = "global")
           ∧ (cache_level = "global" → cp_size = 16)))
    ∧ (∀ n : Int, isOkE (cp_async_wait_group n) = true ↔ 0 ≤ n ∧ n < 10)
    ∧ (∀ (num : Nat) (ssa tr : Bool),
        isOkE (resolve_ldmatrix_func_name num ssa tr) = true
          ↔ (num = 1 ∨ num = 2 ∨ num = 4))
    ∧ (∀ dst src : CExpr,
        cp_async dst src 16 none "global" 0
            = .ok ⟨"cuda_cp_async_size_16_cg", [dst, src, .intConst 16]⟩
        ∧ isOkE (cp_async dst src 8 none "global" 0) = false
        ∧ isOkE (cp_async dst src 4 none "always" 100) = false
        ∧ cp_async dst src 4 none "always" 0
            = .ok ⟨"cuda_cp_async_size_4_ca", [dst, src, .intConst 4]⟩
        ∧ cp_async dst src 8 none "always" 64
            = .ok ⟨"cuda_cp_async_size_8_ca_l2_64B", [dst, src, .intConst 8]⟩) := by
  refine ⟨?_, ?_, ?_, ?_⟩
  · intro dst src cp ss cl pf
    simp only [cp_async]
    split_ifs with h1 h2 h3 h4 <;> simp [isOkE] <;> tauto
  · intro n
    simp only [cp_async_wait_group]
    split_ifs with h <;> simp [isOkE] <;> omega
  · intro num ssa tr
    simp only [resolve_ldmatrix_func_name]
    split_ifs with h <;> simp [isOkE] <;> tauto
  · intro dst src
    exact ⟨rfl, rfl, rfl, rfl, rfl⟩

/-! ### Claim C10: UInt64.constant -/

/-- Claim C10: `UInt64.constant(v)` returns a `Constant` carrying exactly
`v` iff `0 ≤ v ≤ 18446744073709551615` and raises a `ValueError`
otherwise; float arguments are truncated to an integer, with a warning,
before the range check; and `zero`, `one`, `min_value`, `max_value`
return the in-range constants 0, 1, 0 and 2^64 − 1. -/
theorem c10_uint64_constant :
    (∀ i : Int,
       UInt64.constant (.int i)
         = (false,
            if 0 ≤ i ∧ i ≤ 18446744073709551615 then
              .ok ⟨i, "uint64"⟩
            else
              .error ("Value " ++ toString i ++ " is out of range for uint64.")))
    ∧ (∀ i : Int,
        (UInt64.constant (.int i)).2 = .ok ⟨i, "uint64"⟩
          ↔ (0 ≤ i ∧ i ≤ 18446744073709551615))
    ∧ (∀ q : Rat,
        UInt64.constant (.float q) = (true, (UInt64.constant (.int (pyTrunc q))).2))
    ∧ UInt64.zero = (false, .ok ⟨0, "uint64"⟩)
    ∧ UInt64.one = (false, .ok ⟨1, "uint64"⟩)
    ∧ UInt64.min_value = (false, .ok ⟨0, "uint64"⟩)
    ∧ UInt64.max_value = (false, .ok ⟨18446744073709551615, "uint64"⟩) := by
  refine ⟨?_, ?_, ?_, rfl, rfl, rfl, rfl⟩
  · intro i
    by_cases h : 0 ≤ i ∧ i ≤ 18446744073709551615
    · simp [UInt64.constant, h]
    · simp [UInt64.constant, h]
  · intro i
    by_cases h : 0 ≤ i ∧ i ≤ 18446744073709551615
    · simp [UInt64.constant, h]
    · simp [UInt64.constant, h]
  · intro q
    by_cases h : 0 ≤ pyTrunc q ∧ pyTrunc q ≤ 18446744073709551615
    · simp [UInt64.constant, h]
    · simp [UInt64.constant, h]

/-! ### Claim C8: lowering error conditions -/

theorem except_error_bind {ε α β : Type} (e : ε) (f : α → Except ε β) :
    (Except.error (α := α) e >>= f) = .error e := rfl

/-- Claim C8: lowering fails exactly when the visited expression contains
a compute node whose variant is outside {Grid, Reduce, Arg-Reduce} or a
leaf input node with no entry in `input_map`; for every expression
containing neither condition, `expand` completes without raising. -/
theorem c8_lowering_error_conditions (im : IMap) :
    ∀ (e : CExpr) (nb : IMap),
      isOkE (LoopExpander.visit im e nb) = true ↔ wellFormed im e = true := by
  intro e
  induction e with
  | var v => intro nb; simp [LoopExpander.visit, isOkE, wellFormed]
  | intConst n => intro nb; simp [LoopExpander.visit, isOkE, wellFormed]
  | binary op a b iha ihb =>
      intro nb
      cases ha : LoopExpander.visit im a nb with
      | error ea =>
          have hwa : wellFormed im a = false := by
            have h := iha nb; rw [ha] at h; simpa [isOkE] using h
          simp [LoopExpander.visit, ha, except_error_bind, isOkE, wellFormed, hwa]
      | ok ra =>
          obtain ⟨nb1, sa, a1⟩ := ra
          have hwa : wellFormed im a = true := by
            have h := iha nb; rw [ha] at h; simpa [isOkE] using h
          cases hb : LoopExpander.visit im b nb1 with
          | error eb =>
              have hwb : wellFormed im b = false := by
                have h := ihb nb1; rw [hb] at h; simpa [isOkE] using h
              simp [LoopExpander.visit, ha, hb, except_ok_bind, except_error_bind,
                isOkE, wellFormed, hwa, hwb]
          | ok rb =>
              have hwb : wellFormed im b = true := by
                have h := ihb nb1; rw [hb] at h; simpa [isOkE] using h
              simp [LoopExpander.visit, ha, hb, except_ok_bind, isOkE, wellFormed,
                hwa, hwb]
  | reduceInit op d => intro nb; simp [LoopExpander.visit, isOkE, wellFormed]
  | reduceCombine op a v iha ihv =>
      intro nb
      cases ha : LoopExpander.visit im a nb with
      | error ea =>
          have hwa : wellFormed im a = false := by
            have h := iha nb; rw [ha] at h; simpa [isOkE] using h
          simp [LoopExpander.visit, ha, except_error_bind, isOkE, wellFormed, hwa]
      | ok ra =>
          obtain ⟨nb1, sa, a1⟩ := ra
          have hwa : wellFormed im a = true := by
            have h := iha nb; rw [ha] at h; simpa [isOkE] using h
          cases hv : LoopExpander.visit im v nb1 with
          | error ev =>
              have hwv : wellFormed im v = false := by
                have h := ihv nb1; rw [hv] at h; simpa [isOkE] using h
              simp [LoopExpander.visit, ha, hv, except_ok_bind, except_error_bind,
                isOkE, wellFormed, hwa, hwv]
          | ok rv =>
              have hwv : wellFormed im v = true := by
                have h := ihv nb1; rw [hv] at h; simpa [isOkE] using h
              simp [LoopExpander.visit, ha, hv, except_ok_bind, isOkE, wellFormed,
                hwa, hwv]
  | reduceFinalize op a c iha =>
      intro nb
      cases ha : LoopExpander.visit im a nb with
      | error ea =>
          have hwa : wellFormed im a = false := by
            have h := iha nb; rw [ha] at h; simpa [isOkE] using h
          simp [LoopExpander.visit, ha, except_error_bind, isOkE, wellFormed, hwa]
      | ok ra =>
          have hwa : wellFormed im a = true := by
            have h := iha nb; rw [ha] at h; simpa [isOkE] using h
          simp [LoopExpander.visit, ha, except_ok_bind, isOkE, wellFormed, hwa]
  | argCombine op l r ihl ihr =>
      intro nb
      cases hl : LoopExpander.visit im l nb with
      | error el =>
          have hwl : wellFormed im l = false := by
            have h := ihl nb; rw [hl] at h; simpa [isOkE] using h
          simp [LoopExpander.visit, hl, except_error_bind, isOkE, wellFormed, hwl]
      | ok rl =>
          obtain ⟨nb1, sl, l1⟩ := rl
          have hwl : wellFormed im l = true := by
            have h := ihl nb; rw [hl] at h; simpa [isOkE] using h
          cases hr : LoopExpander.visit im r nb1 with
          | error er =>
              have hwr : wellFormed im r = false := by
                have h := ihr nb1; rw [hr] at h; simpa [isOkE] using h
              simp [LoopExpander.visit, hl, hr, except_ok_bind, except_error_bind,
                isOkE, wellFormed, hwl, hwr]
          | ok rr =>
              have hwr : wellFormed im r = true := by
                have h := ihr nb1; rw [hr] at h; simpa [isOkE] using h
              simp [LoopExpander.visit, hl, hr, except_ok_bind, isOkE, wellFormed,
                hwl, hwr]
  | tensorInput nid name d =>
      intro nb
      cases hm : lookupIM im nid with
      | some w => simp [LoopExpander.visit, hm, isOkE, wellFormed]
      | none => simp [LoopExpander.visit, hm, isOkE, wellFormed]
  | gridCompute nid name d shape axes value ih =>
      intro nb
      cases hm : lookupIM im nid with
      | some w =>
          cases hv : LoopExpander.visit im value nb with
          | error ev =>
              have hwv : wellFormed im value = false := by
                have h := ih nb; rw [hv] at h; simpa [isOkE] using h
              simp [LoopExpander.visit, hm, hv, except_error_bind, isOkE,
                wellFormed, hwv]
          | ok rv =>
              have hwv : wellFormed im value = true := by
                have h := ih nb; rw [hv] at h; simpa [isOkE] using h
              simp [LoopExpander.visit, hm, hv, except_ok_bind, isOkE, wellFormed,
                hwv]
      | none =>
          cases hv : LoopExpander.visit im value (nb ++ [(nid, ⟨name, d⟩)]) with
          | error ev =>
              have hwv : wellFormed im value = false := by
                have h := ih (nb ++ [(nid, ⟨name, d⟩)]); rw [hv] at h
                simpa [isOkE] using h
              simp [LoopExpander.visit, hm, hv, except_error_bind, isOkE,
                wellFormed, hwv]
          | ok rv =>
              have hwv : wellFormed im value = true := by
                have h := ih (nb ++ [(nid, ⟨name, d⟩)]); rw [hv] at h
                simpa [isOkE] using h
              simp [LoopExpander.visit, hm, hv, except_ok_bind, isOkE, wellFormed,
                hwv]
  | tensorOther nid name d p =>
      intro nb
      simp [LoopExpander.visit, isOkE, wellFormed]
  | scalarInput nid name d =>
      intro nb
      cases hm : lookupIM im nid with
      | some w => simp [LoopExpander.visit, hm, isOkE, wellFormed]
      | none => simp [LoopExpander.visit, hm, isOkE, wellFormed]
  | reduceCompute nid name d shape axes value op ih =>
      intro nb
      cases hv : LoopExpander.visit im value (nb ++ [(nid, (⟨name, inferType value⟩ : Var))]) with
      | error ev =>
          have hwv : wellFormed im value = false := by
            have h := ih (nb ++ [(nid, (⟨name, inferType value⟩ : Var))]); rw [hv] at h
            simpa [isOkE] using h
          simp [LoopExpander.visit, hv, except_error_bind, isOkE, wellFormed, hwv]
      | ok rv =>
          have hwv : wellFormed im value = true := by
            have h := ih (nb ++ [(nid, (⟨name, inferType value⟩ : Var))]); rw [hv] at h
            simpa [isOkE] using h
          simp [LoopExpander.visit, hv, except_ok_bind, isOkE, wellFormed, hwv]
  | argReduceCompute nid name d ext ax value op idt ih =>
      intro nb
      cases hv : LoopExpander.visit im value (nb ++ [(nid, (⟨name ++ "_idx", idt⟩ : Var))]) with
      | error ev =>
          have hwv : wellFormed im value = false := by
            have h := ih (nb ++ [(nid, (⟨name ++ "_idx", idt⟩ : Var))]); rw [hv] at h
            simpa [isOkE] using h
          simp [LoopExpander.visit, hv, except_error_bind, isOkE, wellFormed, hwv]
      | ok rv =>
          have hwv : wellFormed im value = true := by
            have h := ih (nb ++ [(nid, (⟨name ++ "_idx", idt⟩ : Var))]); rw [hv] at h
            simpa [isOkE] using h
          simp [LoopExpander.visit, hv, except_ok_bind, isOkE, wellFormed, hwv]
  | scalarOther nid name d p =>
      intro nb
      simp [LoopExpander.visit, isOkE, wellFormed]

/-! ### Claim C9: buffer reuse and `new_buffer_map` -/

/-- Keys already present in the threaded `new_buffer_map` survive a
visit: the expander only appends entries. -/
theorem visit_keys_mono (im : IMap) :
    ∀ (e : CExpr) (nb nb' : IMap) (st : List Stmt) (hd : CExpr),
      LoopExpander.visit im e nb = .ok (nb', st, hd) →
      ∀ k, k ∈ nb.map Prod.fst → k ∈ nb'.map Prod.fst := by
  intro e
  induction e with
  | var v =>
      intro nb nb' st hd he k hk
      simp only [LoopExpander.visit, Except.ok.injEq, Prod.mk.injEq] at he
      exact he.1 ▸ hk
  | intConst n =>
      intro nb nb' st hd he k hk
      simp only [LoopExpander.visit, Except.ok.injEq, Prod.mk.injEq] at he
      exact he.1 ▸ hk
  | binary op a b iha ihb =>
      intro nb nb' st hd he k hk
      cases ha : LoopExpander.visit im a nb with
      | error ea => simp [LoopExpander.visit, ha, except_error_bind] at he
      | ok ra =>
          obtain ⟨nb1, sa, a1⟩ := ra
          cases hb : LoopExpander.visit im b nb1 with
          | error eb =>
              simp [LoopExpander.visit, ha, hb, except_ok_bind, except_error_bind] at he
          | ok rb =>
              obtain ⟨nb2, sb, b1⟩ := rb
              simp only [LoopExpander.visit, ha, hb, except_ok_bind, Except.ok.injEq,
                Prod.mk.injEq] at he
              exact he.1 ▸ ihb nb1 nb2 sb b1 hb k (iha nb nb1 sa a1 ha k hk)
  | reduceInit op d =>
      intro nb nb' st hd he k hk
      simp only [LoopExpander.visit, Except.ok.injEq, Prod.mk.injEq] at he
      exact he.1 ▸ hk
  | reduceCombine op a v iha ihv =>
      intro nb nb' st hd he k hk
      cases ha : LoopExpander.visit im a nb with
      | error ea => simp [LoopExpander.visit, ha, except_error_bind] at he
      | ok ra =>
          obtain ⟨nb1, sa, a1⟩ := ra
          cases hv : LoopExpander.visit im v nb1 with
          | error ev =>
              simp [LoopExpander.visit, ha, hv, except_ok_bind, except_error_bind] at he
          | ok rv =>
              obtain ⟨nb2, sv, v1⟩ := rv
              simp only [LoopExpander.visit, ha, hv, except_ok_bind, Except.ok.injEq,
                Prod.mk.injEq] at he
              exact he.1 ▸ ihv nb1 nb2 sv v1 hv k (iha nb nb1 sa a1 ha k hk)
  | reduceFinalize op a c iha =>
      intro nb nb' st hd he k hk
      cases ha : LoopExpander.visit im a nb with
      | error ea => simp [LoopExpander.visit, ha, except_error_bind] at he
      | ok ra =>
          obtain ⟨nb1, sa, a1⟩ := ra
          simp only [LoopExpander.visit, ha, except_ok_bind, Except.ok.injEq,
            Prod.mk.injEq] at he
          exact he.1 ▸ iha nb nb1 sa a1 ha k hk
  | argCombine op l r ihl ihr =>
      intro nb nb' st hd he k hk
      cases hl : LoopExpander.visit im l nb with
      | error el => simp [LoopExpander.visit, hl, except_error_bind] at he
      | ok rl =>
          obtain ⟨nb1, sl, l1⟩ := rl
          cases hr : LoopExpander.visit im r nb1 with
          | error er =>
              simp [LoopExpander.visit, hl, hr, except_ok_bind, except_error_bind] at he
          | ok rr =>
              obtain ⟨nb2, sr, r1⟩ := rr
              simp only [LoopExpander.visit, hl, hr, except_ok_bind, Except.ok.injEq,
                Prod.mk.injEq] at he
              exact he.1 ▸ ihr nb1 nb2 sr r1 hr k (ihl nb nb1 sl l1 hl k hk)
  | tensorInput nid name d =>
      intro nb nb' st hd he k hk
      cases hm : lookupIM im nid with
      | some w =>
          simp only [LoopExpander.visit, hm, Except.ok.injEq, Prod.mk.injEq] at he
          exact he.1 ▸ hk
      | none => simp [LoopExpander.visit, hm] at he
  | gridCompute nid name d shape axes value ih =>
      intro nb nb' st hd he k hk
      cases hm : lookupIM im nid with
      | some w =>
          cases hv : LoopExpander.visit im value nb with
          | error ev => simp [LoopExpander.visit, hm, hv, except_error_bind] at he
          | ok rv =>
              obtain ⟨nb2, vS, vE⟩ := rv
              simp only [LoopExpander.visit, hm, hv, except_ok_bind, Except.ok.injEq,
                Prod.mk.injEq] at he
              exact he.1 ▸ ih nb nb2 vS vE hv k hk
      | none =>
          cases hv : LoopExpander.visit im value (nb ++ [(nid, ⟨name, d⟩)]) with
          | error ev => simp [LoopExpander.visit, hm, hv, except_error_bind] at he
          | ok rv =>
              obtain ⟨nb2, vS, vE⟩ := rv
              simp only [LoopExpander.visit, hm, hv, except_ok_bind, Except.ok.injEq,
                Prod.mk.injEq] at he
              refine he.1 ▸ ih _ nb2 vS vE hv k ?_
              simp only [List.map_append, List.mem_append]
              exact Or.inl hk
  | tensorOther nid name d p =>
      intro nb nb' st hd he k hk
      simp [LoopExpander.visit] at he
  | scalarInput nid name d =>
      intro nb nb' st hd he k hk
      cases hm : lookupIM im nid with
      | some w =>
          simp only [LoopExpander.visit, hm, Except.ok.injEq, Prod.mk.injEq] at he
          exact he.1 ▸ hk
      | none => simp [LoopExpander.visit, hm] at he
  | reduceCompute nid name d shape axes value op ih =>
      intro nb nb' st hd he k hk
      cases hv : LoopExpander.visit im value
          (nb ++ [(nid, (⟨name, inferType value⟩ : Var))]) with
      | error ev => simp [LoopExpander.visit, hv, except_error_bind] at he
      | ok rv =>
          obtain ⟨nb2, vS, vE⟩ := rv
          simp only [LoopExpander.visit, hv, except_ok_bind, Except.ok.injEq,
            Prod.mk.injEq] at he
          refine he.1 ▸ ih _ nb2 vS vE hv k ?_
          simp only [List.map_append, List.mem_append]
          exact Or.inl hk
  | argReduceCompute nid name d ext ax value op idt ih =>
      intro nb nb' st hd he k hk
      cases hv : LoopExpander.visit im value
          (nb ++ [(nid, (⟨name ++ "_idx", idt⟩ : Var))]) with
      | error ev => simp [LoopExpander.visit, hv, except_error_bind] at he
      | ok rv =>
          obtain ⟨nb2, vS, vE⟩ := rv
          simp only [LoopExpander.visit, hv, except_ok_bind, Except.ok.injEq,
            Prod.mk.injEq] at he
          refine he.1 ▸ ih _ nb2 vS vE hv k ?_
          simp only [List.map_append, List.mem_append]
          exact Or.inl hk
  | scalarOther nid name d p =>
      intro nb nb' st hd he k hk
      simp [LoopExpander.visit] at he

/-- Every key the expander adds to `new_buffer_map` while visiting an
expression free of Reduce / Arg-Reduce scalar nodes is absent from
`input_map`. -/
theorem visit_new_keys_not_in_input_map (im : IMap) :
    ∀ (e : CExpr) (nb nb' : IMap) (st : List Stmt) (hd : CExpr),
      scalarComputeFree e = true →
      LoopExpander.visit im e nb = .ok (nb', st, hd) →
      ∀ k ∈ nb'.map Prod.fst, k ∈ nb.map Prod.fst ∨ lookupIM im k = none := by
  intro e
  induction e with
  | var v =>
      intro nb nb' st hd _ he k hk
      simp only [LoopExpander.visit, Except.ok.injEq, Prod.mk.injEq] at he
      exact Or.inl (he.1 ▸ hk)
  | intConst n =>
      intro nb nb' st hd _ he k hk
      simp only [LoopExpander.visit, Except.ok.injEq, Prod.mk.injEq] at he
      exact Or.inl (he.1 ▸ hk)
  | binary op a b iha ihb =>
      intro nb nb' st hd hfree he k hk
      simp only [scalarComputeFree, Bool.and_eq_true] at hfree
      cases ha : LoopExpander.visit im a nb with
      | error ea => simp [LoopExpander.visit, ha, except_error_bind] at he
      | ok ra =>
          obtain ⟨nb1, sa, a1⟩ := ra
          cases hb : LoopExpander.visit im b nb1 with
          | error eb =>
              simp [LoopExpander.visit, ha, hb, except_ok_bind, except_error_bind] at he
          | ok rb =>
              obtain ⟨nb2, sb, b1⟩ := rb
              simp only [LoopExpander.visit, ha, hb, except_ok_bind, Except.ok.injEq,
                Prod.mk.injEq] at he
              rcases ihb nb1 nb2 sb b1 hfree.2 hb k (he.1 ▸ hk) with hk1 | hnone
              · exact iha nb nb1 sa a1 hfree.1 ha k hk1
              · exact Or.inr hnone
  | reduceInit op d =>
      intro nb nb' st hd _ he k hk
      simp only [LoopExpander.visit, Except.ok.injEq, Prod.mk.injEq] at he
      exact Or.inl (he.1 ▸ hk)
  | reduceCombine op a v iha ihv =>
      intro nb nb' st hd hfree he k hk
      simp only [scalarComputeFree, Bool.and_eq_true] at hfree
      cases ha : LoopExpander.visit im a nb with
      | error ea => simp [LoopExpander.visit, ha, except_error_bind] at he
      | ok ra =>
          obtain ⟨nb1, sa, a1⟩ := ra
          cases hv : LoopExpander.visit im v nb1 with
          | error ev =>
              simp [LoopExpander.visit, ha, hv, except_ok_bind, except_error_bind] at he
          | ok rv =>
              obtain ⟨nb2, sv, v1⟩ := rv
              simp only [LoopExpander.visit, ha, hv, except_ok_bind, Except.ok.injEq,
                Prod.mk.injEq] at he
              rcases ihv nb1 nb2 sv v1 hfree.2 hv k (he.1 ▸ hk) with hk1 | hnone
              · exact iha nb nb1 sa a1 hfree.1 ha k hk1
              · exact Or.inr hnone
  | reduceFinalize op a c iha =>
      intro nb nb' st hd hfree he k hk
      simp only [scalarComputeFree] at hfree
      cases ha : LoopExpander.visit im a nb with
      | error ea => simp [LoopExpander.visit, ha, except_error_bind] at he
      | ok ra =>
          obtain ⟨nb1, sa, a1⟩ := ra
          simp only [LoopExpander.visit, ha, except_ok_bind, Except.ok.injEq,
            Prod.mk.injEq] at he
          exact iha nb nb1 sa a1 hfree ha k (he.1 ▸ hk)
  | argCombine op l r ihl ihr =>
      intro nb nb' st hd hfree he k hk
      simp only [scalarComputeFree, Bool.and_eq_true] at hfree
      cases hl : LoopExpander.visit im l nb with
      | error el => simp [LoopExpander.visit, hl, except_error_bind] at he
      | ok rl =>
          obtain ⟨nb1, sl, l1⟩ := rl
          cases hr : LoopExpander.visit im r nb1 with
          | error er =>
              simp [LoopExpander.visit, hl, hr, except_ok_bind, except_error_bind] at he
          | ok rr =>
              obtain ⟨nb2, sr, r1⟩ := rr
              simp only [LoopExpander.visit, hl, hr, except_ok_bind, Except.ok.injEq,
                Prod.mk.injEq] at he
              rcases ihr nb1 nb2 sr r1 hfree.2 hr k (he.1 ▸ hk) with hk1 | hnone
              · exact ihl nb nb1 sl l1 hfree.1 hl k hk1
              · exact Or.inr hnone
  | tensorInput nid name d =>
      intro nb nb' st hd _ he k hk
      cases hm : lookupIM im nid with
      | some w =>
          simp only [LoopExpander.visit, hm, Except.ok.injEq, Prod.mk.injEq] at he
          exact Or.inl (he.1 ▸ hk)
      | none => simp [LoopExpander.visit, hm] at he
  | gridCompute nid name d shape axes value ih =>
      intro nb nb' st hd hfree he k hk
      simp only [scalarComputeFree] at hfree
      cases hm : lookupIM im nid with
      | some w =>
          cases hv : LoopExpander.visit im value nb with
          | error ev => simp [LoopExpander.visit, hm, hv, except_error_bind] at he
          | ok rv =>
              obtain ⟨nb2, vS, vE⟩ := rv
              simp only [LoopExpander.visit, hm, hv, except_ok_bind, Except.ok.injEq,
                Prod.mk.injEq] at he
              exact ih nb nb2 vS vE hfree hv k (he.1 ▸ hk)
      | none =>
          cases hv : LoopExpander.visit im value (nb ++ [(nid, ⟨name, d⟩)]) with
          | error ev => simp [LoopExpander.visit, hm, hv, except_error_bind] at he
          | ok rv =>
              obtain ⟨nb2, vS, vE⟩ := rv
              simp only [LoopExpander.visit, hm, hv, except_ok_bind, Except.ok.injEq,
                Prod.mk.injEq] at he
              rcases ih _ nb2 vS vE hfree hv k (he.1 ▸ hk) with hk1 | hnone
              · simp only [List.map_append, List.mem_append, List.map_cons,
                  List.map_nil, List.mem_cons, List.not_mem_nil, or_false] at hk1
                rcases hk1 with hk0 | hk0
                · exact Or.inl hk0
                · subst hk0
                  exact Or.inr hm
              · exact Or.inr hnone
  | tensorOther nid name d p =>
      intro nb nb' st hd _ he k hk
      simp [LoopExpander.visit] at he
  | scalarInput nid name d =>
      intro nb nb' st hd _ he k hk
      cases hm : lookupIM im nid with
      | some w =>
          simp only [LoopExpander.visit, hm, Except.ok.injEq, Prod.mk.injEq] at he
          exact Or.inl (he.1 ▸ hk)
      | none => simp [LoopExpander.visit, hm] at he
  | reduceCompute nid name d shape axes value op ih =>
      intro nb nb' st hd hfree he k hk
      simp [scalarComputeFree] at hfree
  | argReduceCompute nid name d ext ax value op idt ih =>
      intro nb nb' st hd hfree he k hk
      simp [scalarComputeFree] at hfree
  | scalarOther nid name d p =>
      intro nb nb' st hd _ he k hk
      simp [LoopExpander.visit] at he

/-- Claim C9 (amended): for expressions containing no Reduce / Arg-Reduce
scalar node, every key of the `new_buffer_map` returned by `expand` is
absent from `input_map` (grid tensor nodes present in `input_map` reuse
the supplied storage and allocate nothing); Reduce and Arg-Reduce scalar
nodes, however, always allocate a fresh accumulator and place themselves
in `new_buffer_map`, even when they are present in `input_map` (the
supplied entry then merely receives a copy of the result). -/
theorem c9_new_buffer_map_keys :
    (∀ (im : IMap) (e : CExpr) (nb' : IMap) (st : List Stmt) (hd : CExpr),
       scalarComputeFree e = true →
       LoopExpander.visit im e [] = .ok (nb', st, hd) →
       ∀ k ∈ nb'.map Prod.fst, lookupIM im k = none)
    ∧ (∀ (im : IMap) (nid : Nat) (name dataType : String) (shape : List Nat)
         (axes : List Var) (value : CExpr) (op : String)
         (nb nb' : IMap) (st : List Stmt) (hd : CExpr),
       LoopExpander.visit im (.reduceCompute nid name dataType shape axes value op) nb
         = .ok (nb', st, hd) →
       nid ∈ nb'.map Prod.fst)
    ∧ (∀ (im : IMap) (nid : Nat) (name dataType : String) (ext : Nat) (ax : Var)
         (value : CExpr) (op : String) (idt : String)
         (nb nb' : IMap) (st : List Stmt) (hd : CExpr),
       LoopExpander.visit im
           (.argReduceCompute nid name dataType ext ax value op idt) nb
         = .ok (nb', st, hd) →
       nid ∈ nb'.map Prod.fst) := by
  refine ⟨?_, ?_, ?_⟩
  · intro im e nb' st hd hfree he k hk
    rcases visit_new_keys_not_in_input_map im e [] nb' st hd hfree he k hk with h0 | hn
    · simp at h0
    · exact hn
  · intro im nid name dataType shape axes value op nb nb' st hd he
    cases hv : LoopExpander.visit im value
        (nb ++ [(nid, (⟨name, inferType value⟩ : Var))]) with
    | error ev => simp [LoopExpander.visit, hv, except_error_bind] at he
    | ok rv =>
        obtain ⟨nb2, vS, vE⟩ := rv
        simp only [LoopExpander.visit, hv, except_ok_bind, Except.ok.injEq,
          Prod.mk.injEq] at he
        refine he.1 ▸ visit_keys_mono im value _ nb2 vS vE hv nid ?_
        simp
  · intro im nid name dataType ext ax value op idt nb nb' st hd he
    cases hv : LoopExpander.visit im value
        (nb ++ [(nid, (⟨name ++ "_idx", idt⟩ : Var))]) with
    | error ev => simp [LoopExpander.visit, hv, except_error_bind] at he
    | ok rv =>
        obtain ⟨nb2, vS, vE⟩ := rv
        simp only [LoopExpander.visit, hv, except_ok_bind, Except.ok.injEq,
          Prod.mk.injEq] at he
        refine he.1 ▸ visit_keys_mono im value _ nb2 vS vE hv nid ?_
        simp

/-- Counterexample to claim C9 as stated: a Reduce scalar node present in
`input_map` (key 5 mapped to `out`) still receives a freshly allocated
accumulator and appears in the returned `new_buffer_map`, so
`new_buffer_map`'s key set is not disjoint from `input_map`'s. -/
theorem c9_disjointness_counterexample :
    lookupIM [(5, (⟨"out", "f32"⟩ : Var))] 5 = some ⟨"out", "f32"⟩
    ∧ LoopExpander.visit [(5, ⟨"out", "f32"⟩)]
        (CExpr.reduceCompute 5 "s" "f16" [3] [⟨"k", "int32"⟩]
          (CExpr.var ⟨"x", "f32"⟩) "sum") []
        = .ok ([(5, ⟨"s", "f32"⟩)],
               [Stmt.assign ⟨"s", "f32"⟩ (.reduceInit "sum" "f16"),
                Stmt.forS ⟨"k", "int32"⟩ 3
                  [Stmt.assign ⟨"s", "f32"⟩
                     (.reduceCombine "sum" (.var ⟨"s", "f32"⟩) (.var ⟨"x", "f32"⟩))],
                Stmt.assign ⟨"out", "f32"⟩
                  (.reduceFinalize "sum" (.var ⟨"s", "f32"⟩) 3)],
               .reduceFinalize "sum" (.var ⟨"s", "f32"⟩) 3)
    ∧ (5 : Nat) ∈ ([(5, (⟨"s", "f32"⟩ : Var))] : IMap).map Prod.fst :=
  ⟨rfl, rfl, by decide⟩

/-- Witness for C9 (amended): the grid part at a concrete scalar-free
expression, and the reduce part at a concrete reduce node in
`input_map`. -/
theorem c9_new_buffer_map_keys_witness :
    scalarComputeFree (CExpr.gridCompute 1 "c" "f32" [2] [⟨"i", "int32"⟩]
        (CExpr.var ⟨"x", "f32"⟩)) = true
    ∧ LoopExpander.visit [(0, ⟨"w", "f32"⟩)]
        (CExpr.gridCompute 1 "c" "f32" [2] [⟨"i", "int32"⟩]
          (CExpr.var ⟨"x", "f32"⟩)) []
        = .ok ([(1, ⟨"c", "f32"⟩)],
               [Stmt.forS ⟨"i", "int32"⟩ 2
                  [Stmt.bufferStore ⟨"c", "f32"⟩ [CExpr.var ⟨"i", "int32"⟩]
                     (CExpr.var ⟨"x", "f32"⟩)]],
               .var ⟨"c", "f32"⟩)
    ∧ (∀ k ∈ ([(1, (⟨"c", "f32"⟩ : Var))] : IMap).map Prod.fst,
         lookupIM [(0, (⟨"w", "f32"⟩ : Var))] k = none)
    ∧ LoopExpander.visit [(5, ⟨"out", "f32"⟩)]
        (CExpr.reduceCompute 5 "s" "f16" [3] [⟨"k", "int32"⟩]
          (CExpr.var ⟨"x", "f32"⟩) "sum") []
        = .ok ([(5, ⟨"s", "f32"⟩)],
               [Stmt.assign ⟨"s", "f32"⟩ (.reduceInit "sum" "f16"),
                Stmt.forS ⟨"k", "int32"⟩ 3
                  [Stmt.assign ⟨"s", "f32"⟩
                     (.reduceCombine "sum" (.var ⟨"s", "f32"⟩) (.var ⟨"x", "f32"⟩))],
                Stmt.assign ⟨"out", "f32"⟩
                  (.reduceFinalize "sum" (.var ⟨"s", "f32"⟩) 3)],
               .reduceFinalize "sum" (.var ⟨"s", "f32"⟩) 3)
    ∧ (5 : Nat) ∈ ([(5, (⟨"s", "f32"⟩ : Var))] : IMap).map Prod.fst :=
  ⟨by decide, rfl,
   c9_new_buffer_map_keys.1 [(0, ⟨"w", "f32"⟩)]
     (CExpr.gridCompute 1 "c" "f32" [2] [⟨"i", "int32"⟩] (CExpr.var ⟨"x", "f32"⟩))
     [(1, ⟨"c", "f32"⟩)]
     [Stmt.forS ⟨"i", "int32"⟩ 2
        [Stmt.bufferStore ⟨"c", "f32"⟩ [CExpr.var ⟨"i", "int32"⟩]
           (CExpr.var ⟨"x", "f32"⟩)]]
     (.var ⟨"c", "f32"⟩) (by decide) rfl,
   rfl,
   c9_new_buffer_map_keys.2.1 [(5, ⟨"out", "f32"⟩)] 5 "s" "f16" [3]
     [⟨"k", "int32"⟩] (CExpr.var ⟨"x", "f32"⟩) "sum" []
     [(5, ⟨"s", "f32"⟩)]
     [Stmt.assign ⟨"s", "f32"⟩ (.reduceInit "sum" "f16"),
      Stmt.forS ⟨"k", "int32"⟩ 3
        [Stmt.assign ⟨"s", "f32"⟩
           (.reduceCombine "sum" (.var ⟨"s", "f32"⟩) (.var ⟨"x", "f32"⟩))],
      Stmt.assign ⟨"out", "f32"⟩
        (.reduceFinalize "sum" (.var ⟨"s", "f32"⟩) 3)]
     (.reduceFinalize "sum" (.var ⟨"s", "f32"⟩) 3) rfl⟩

end Hidet
